import Mathlib

/-!
Verification of the semgrep rule compiler (`semgrep/rule.py`).

The Python module is shallowly embedded below: the parsed YAML document is a
`Value` (ordered mappings as association lists, matching Python 3.7+ dict
ordering), Python exceptions become an explicit `RuleError` sum carried by
`Except`, and the generator `_parse_boolean_expression` — whose output is
always drained eagerly by `list(...)` at every call site — becomes a pair of
mutually recursive functions returning the drained list together with the
running leaf counter.

Definitions carrying a doc comment starting with `Modelled from the spec:`
embed pieces of the repository that live outside `rule.py` (the
`semgrep_types` and `rule_lang` helper modules); everything else is a direct
translation of `rule.py`.
-/

namespace Semgrep

/-- A parsed YAML/JSON-like document value, as handed to `Rule`.
Mappings are ordered association lists (Python 3.7+ dicts preserve
insertion order). -/
inductive Value where
  | str (s : String)
  | int (n : Int)
  | bool (b : Bool)
  | null
  | list (xs : List Value)
  | dict (xs : List (String × Value))

/-- Python truthiness (`if pattern:`): empty strings, zero, `False`, `None`,
and empty containers are falsy. -/
def Value.truthy : Value → Bool
  | .str s => !s.isEmpty
  | .int n => n != 0
  | .bool b => b
  | .null => false
  | .list xs => !xs.isEmpty
  | .dict xs => !xs.isEmpty

/-- Python `type(x).__name__` for our embedded values. -/
def Value.typeName : Value → String
  | .str _ => "str"
  | .int _ => "int"
  | .bool _ => "bool"
  | .null => "NoneType"
  | .list _ => "list"
  | .dict _ => "dict"

/-- Python `d.get(k)` on an ordered mapping: first binding of `k`, if any. -/
def dictGet (xs : List (String × Value)) (k : String) : Option Value :=
  match xs with
  | [] => none
  | kv :: rest => if kv.1 = k then some kv.2 else dictGet rest k

mutual
/-- Rendering of a value interpolated into an error-message f-string
(for example `invalid type for pattern ...`). Python's exact `repr`
punctuation is immaterial to every claim below, so values are rendered
JSON-style. -/
def Value.render : Value → String
  | .str s => "\x22" ++ s ++ "\x22"
  | .int n => toString n
  | .bool true => "True"
  | .bool false => "False"
  | .null => "None"
  | .list xs => "[" ++ Value.renderElems xs ++ "]"
  | .dict xs => "\x7b" ++ Value.renderPairs xs ++ "\x7d"

/-- Comma-separated rendering of list elements. -/
def Value.renderElems : List Value → String
  | [] => ""
  | [v] => v.render
  | v :: rest => v.render ++ ", " ++ Value.renderElems rest

/-- Comma-separated rendering of mapping entries. -/
def Value.renderPairs : List (String × Value) → String
  | [] => ""
  | [kv] => "\x22" ++ kv.1 ++ "\x22: " ++ kv.2.render
  | kv :: rest => "\x22" ++ kv.1 ++ "\x22: " ++ kv.2.render ++ ", " ++ Value.renderPairs rest
end

/-- Rendering of `type(x)` interpolated into an error message,
Python's `<class ...>` form (quoting as in `Value.render`). -/
def pyClassRender (v : Value) : String :=
  "<class \x22" ++ v.typeName ++ "\x22>"

/-- Modelled from the spec: a diagnostic source span from the missing
`rule_lang` module — a location range in the original document (§6).  Our
embedded documents carry no positions, so we record the node the span was
computed from. -/
structure Span where
  src : Value

/-- Modelled from the spec: `Span.from_dict` derives a location range from a
document mapping node; positions are recoverable exactly for mappings.  The
`before_context` widening argument does not change which node the span is
computed from and is not modelled. -/
def Span.fromDict (v : Value) : Option Span :=
  match v with
  | .dict _ => some ⟨v⟩
  | _ => none

/-- Modelled from the spec: the placeholder "unknown location" span (§6). -/
def DUMMY_SPAN : Span := ⟨.null⟩

/-- The structured diagnostic from the missing `rule_lang` module, as
constructed by `rule.py` (short message, long message, level, remediation
hint, source spans). -/
structure RuleLangError where
  short_msg : String
  long_msg : String
  level : String
  help : String
  spans : List Span

/-- Modelled from the spec: `RuleLangError.emit` renders the structured
diagnostic into the string carried by the raised schema error; the rendered
text carries the short message, the long message and the hint (§6). -/
def RuleLangError.emit (e : RuleLangError) : String :=
  e.short_msg ++ "\n" ++ e.long_msg ++ "\n" ++ e.help

/-- The exceptions `rule.py` can raise: `InvalidRuleSchema` (the spec's
SchemaError) with its message, and the built-in `KeyError` / `TypeError`
escaping from mapping subscripts and iteration. -/
inductive RuleError where
  | invalidRuleSchema (msg : String)
  | keyError (key : String)
  | typeError (msg : String)
deriving DecidableEq

/-- Modelled from the spec: the operator enumeration from `semgrep_types`
(§3) — the four top-level families plus the nested negation /
"pattern-inside" style variants. -/
inductive Operator where
  | opAnd
  | opRegex
  | opAndAll
  | opAndEither
  | opAndNot
  | opAndInside
  | opAndNotInside
deriving DecidableEq

/-- Modelled from the spec: `pattern_names_for_operator`, the fixed
operator→key-name table (§3, §4.1, §8). -/
def patternNamesForOperator : Operator → List String
  | .opAnd => ["pattern"]
  | .opRegex => ["pattern-regex"]
  | .opAndAll => ["patterns"]
  | .opAndEither => ["pattern-either"]
  | .opAndNot => ["pattern-not"]
  | .opAndInside => ["pattern-inside"]
  | .opAndNotInside => ["pattern-not-inside"]

/-- Modelled from the spec: `operator_for_pattern_name`, the reverse
name→operator lookup; unknown keys have no operator and fail with a
SchemaError (§4.1). -/
def operatorForPatternName (name : String) : Option Operator :=
  if name = "pattern" then some .opAnd
  else if name = "pattern-regex" then some .opRegex
  else if name = "patterns" then some .opAndAll
  else if name = "pattern-either" then some .opAndEither
  else if name = "pattern-not" then some .opAndNot
  else if name = "pattern-inside" then some .opAndInside
  else if name = "pattern-not-inside" then some .opAndNotInside
  else none

/-- Modelled from the spec: the accepted top-level pattern families, in the
order the spec enumerates them (§8: `pattern`, `pattern-regex`, `patterns`,
`pattern-either`). -/
def YAML_VALID_TOP_LEVEL_OPERATORS : List Operator :=
  [.opAnd, .opRegex, .opAndAll, .opAndEither]

/-- Modelled from the spec: `pattern_names_for_operators`, all accepted key
names of a list of operator families. -/
def patternNamesForOperators (ops : List Operator) : List String :=
  (ops.map patternNamesForOperator).flatten

/-- Modelled from the spec: the `BooleanRuleExpression` named tuple from
`semgrep_types` — the Boolean Expression Tree node of §3 with fields
`operator`, `pattern_id`, `children`, `operand` (the pattern text) and
`span`.  `pattern_id` holds a document value because the top-level
single-pattern branch stores the rule's raw `id` value there. -/
inductive BooleanRuleExpression where
  | mk
    (operator : Operator)
    (pattern_id : Option Value)
    (children : Option (List BooleanRuleExpression))
    (operand : Option Value)
    (span : Option Span)

/-- Field projection: `operator`. -/
def BooleanRuleExpression.operator : BooleanRuleExpression → Operator
  | .mk op _ _ _ _ => op

/-- Field projection: `pattern_id`. -/
def BooleanRuleExpression.pattern_id : BooleanRuleExpression → Option Value
  | .mk _ pid _ _ _ => pid

/-- Field projection: `children`. -/
def BooleanRuleExpression.children : BooleanRuleExpression → Option (List BooleanRuleExpression)
  | .mk _ _ cs _ _ => cs

/-- Field projection: `operand` (the pattern text). -/
def BooleanRuleExpression.operand : BooleanRuleExpression → Option Value
  | .mk _ _ _ t _ => t

/-- The message of the `InvalidRuleSchema` raised for a pattern-list element
that is not a mapping. -/
def invalidPatternElemMsg (p : Value) : String :=
  "invalid type for pattern " ++ p.render ++ ": " ++ pyClassRender p ++ " is not a dict"

/-- The message of the `InvalidRuleSchema` raised for a pattern value that is
neither a nested list nor a string (`elem` is the enclosing element). -/
def invalidPatternTextMsg (elem t : Value) : String :=
  "invalid type for pattern " ++ elem.render ++ ": " ++ pyClassRender t

/-- Modelled from the spec: the SchemaError message for an unknown operator
key (§4.1 — unknown keys fail with a SchemaError naming the key). -/
def unknownOperatorMsg (k : String) : String :=
  "unknown operator " ++ k

/-- Whether the first character list is a prefix of the second. -/
def charsBegins : List Char → List Char → Bool
  | [], _ => true
  | _ :: _, [] => false
  | a :: as, b :: bs => a == b && charsBegins as bs

/-- Python `s.startswith(p)` (written over character lists so that closed
instances compute). -/
def pyStartsWith (s p : String) : Bool :=
  charsBegins p.data s.data

mutual
/-- The element loop of `Rule._parse_boolean_expression`: walks the pattern
list, threading the leaf counter `patternId` across elements; every call
site drains the Python generator with `list(...)`, so the drained list is
returned directly.  A non-mapping element raises `InvalidRuleSchema`. -/
def parseElems : List Value → Nat → String → Except RuleError (List BooleanRuleExpression × Nat)
  | [], patternId, _ => .ok ([], patternId)
  | p :: rest, patternId, pfx =>
    match p with
    | .dict pairs => do
      let (es, pid1) ← parsePairs p pairs patternId pfx
      let (more, pid2) ← parseElems rest pid1 pfx
      .ok (es ++ more, pid2)
    | _ => .error (.invalidRuleSchema (invalidPatternElemMsg p))

/-- The key/value loop of `Rule._parse_boolean_expression` over one element
mapping (`elem` is that element, used for the span and error messages):
keys with the reserved `__` prefix are skipped; a list value recurses with
prefix `pfx.patternId` and a fresh counter, yielding a composite node; a
string value yields a leaf with id `pfx.patternId` and increments the
counter; anything else raises `InvalidRuleSchema`. -/
def parsePairs : Value → List (String × Value) → Nat → String → Except RuleError (List BooleanRuleExpression × Nat)
  | _, [], patternId, _ => .ok ([], patternId)
  | elem, (k, v) :: rest, patternId, pfx =>
    if pyStartsWith k "__" then parsePairs elem rest patternId pfx
    else
      match operatorForPatternName k with
      | none => .error (.invalidRuleSchema (unknownOperatorMsg k))
      | some op =>
        match v with
        | .list l => do
          let (sub, _) ← parseElems l 0 (pfx ++ "." ++ toString patternId)
          let (more, pid2) ← parsePairs elem rest patternId pfx
          .ok (.mk op none (some sub) none (Span.fromDict elem) :: more, pid2)
        | .str s => do
          let (more, pid2) ← parsePairs elem rest (patternId + 1) pfx
          .ok (.mk op (some (.str (pfx ++ "." ++ toString patternId))) none
                (some (.str s)) (Span.fromDict elem) :: more, pid2)
        | _ => .error (.invalidRuleSchema (invalidPatternTextMsg elem v))
end

/-- `Rule._parse_boolean_expression`: the entry-point type check (`nodes`
must be a list, otherwise `InvalidRuleSchema` with a span taken from
whichever of `nodes`/`parent` is a mapping), then the drained generator
loop. -/
def parseBooleanExpression (rulePatterns : Value) (parent : Value) (patternId : Nat) (pfx : String) : Except RuleError (List BooleanRuleExpression) :=
  match rulePatterns with
  | .list pats => (parseElems pats patternId pfx).map Prod.fst
  | _ =>
    let span : Option Span :=
      match rulePatterns with
      | .dict _ => Span.fromDict rulePatterns
      | _ => Span.fromDict parent
    let err : RuleLangError :=
      ⟨"invalid type for `patterns`",
        "invalid type for `patterns` (expected list, found " ++ rulePatterns.typeName ++ ")",
        "error",
        "perhaps your YAML is missing a `-`?",
        [span.getD DUMMY_SPAN]⟩
    .error (.invalidRuleSchema err.emit)

/-- Python `rule_raw[k]`: mapping subscript, raising `KeyError` when the key
is absent. -/
def dictGetItem (xs : List (String × Value)) (k : String) : Except RuleError Value :=
  match dictGet xs k with
  | some v => .ok v
  | none => .error (.keyError k)

/-- One family's scan in `Rule._build_boolean_expression`:
`rule_raw.get(pattern_name)` followed by the `if pattern:` truthiness test,
over the family's accepted key names in order. -/
def findTruthy (ruleRaw : List (String × Value)) : List String → Option Value
  | [] => none
  | n :: rest =>
    match dictGet ruleRaw n with
    | some v => if v.truthy then some v else findTruthy ruleRaw rest
    | none => findTruthy ruleRaw rest

/-- The message of the `InvalidRuleSchema` raised when no pattern family
matches. -/
def missingPatternTypeMsg : String :=
  "missing a pattern type in rule, expected one of " ++
    Value.render (.list ((patternNamesForOperators YAML_VALID_TOP_LEVEL_OPERATORS).map .str))

/-- `Rule._build_boolean_expression`: fixed-order dispatch over the four
top-level families (AND, REGEX, AND_ALL, AND_EITHER); the first family whose
key is present with a truthy value wins; single-pattern families build a
leaf carrying `rule_raw["id"]`, composite families drain
`_parse_boolean_expression`; no family raises `InvalidRuleSchema`. -/
def buildBooleanExpression (ruleRaw : List (String × Value)) : Except RuleError BooleanRuleExpression :=
  let span := Span.fromDict (.dict ruleRaw)
  match findTruthy ruleRaw (patternNamesForOperator .opAnd) with
  | some v => do
    let i ← dictGetItem ruleRaw "id"
    .ok (.mk .opAnd (some i) none (some v) span)
  | none =>
    match findTruthy ruleRaw (patternNamesForOperator .opRegex) with
    | some v => do
      let i ← dictGetItem ruleRaw "id"
      .ok (.mk .opRegex (some i) none (some v) span)
    | none =>
      match findTruthy ruleRaw (patternNamesForOperator .opAndAll) with
      | some v => do
        let cs ← parseBooleanExpression v (.dict ruleRaw) 0 ""
        .ok (.mk .opAndAll none (some cs) none span)
      | none =>
        match findTruthy ruleRaw (patternNamesForOperator .opAndEither) with
        | some v => do
          let cs ← parseBooleanExpression v (.dict ruleRaw) 0 ""
          .ok (.mk .opAndEither none (some cs) none span)
        | none => .error (.invalidRuleSchema missingPatternTypeMsg)

/-- Modelled from the spec: `ALLOWED_GLOB_TYPES` from `semgrep_types` — the
allowed `paths:` rule-type names (§4.3: an include-like name and
`exclude`). -/
def ALLOWED_GLOB_TYPES : List String := ["include", "exclude"]

/-- Equality of hashable scalar values inside a Python set (`set.add`
deduplication).  Containers are unhashable and never reach a set (see
`setAdd`).  Python's numeric `1 == True` coercions are not exercised by glob
values and are not modelled. -/
def Value.scalarEq : Value → Value → Bool
  | .str a, .str b => a == b
  | .int a, .int b => a == b
  | .bool a, .bool b => a == b
  | .null, .null => true
  | _, _ => false

/-- Python `set.add` (`glob_set.add(rule_value)`): unhashable values (lists,
mappings) raise `TypeError`; hashable values are inserted when not already
present.  The set is modelled as an insertion-ordered duplicate-free
list. -/
def setAdd (s : List Value) (v : Value) : Except RuleError (List Value) :=
  match v with
  | .list _ => .error (.typeError "unhashable type: list")
  | .dict _ => .error (.typeError "unhashable type: dict")
  | _ => .ok (if s.any (Value.scalarEq v) then s else s ++ [v])

/-- `for rule_value in rule_values: glob_set.add(rule_value)`. -/
def setAddAll (s : List Value) : List Value → Except RuleError (List Value)
  | [] => .ok s
  | v :: rest => do
    let s2 ← setAdd s v
    setAddAll s2 rest

/-- Modelled from the spec: `RuleGlobs` from `semgrep_types`, the Glob Set of
§3 — an include set and an exclude set of glob values (Python sets, modelled
as insertion-ordered duplicate-free lists). -/
structure RuleGlobs where
  includeGlobs : List Value
  excludeGlobs : List Value

/-- `rule_values = [rule] if isinstance(rule, str) else rule`, then Python
iteration over `rule_values`: a string wraps into a singleton, a list
iterates its elements, a mapping iterates its keys, anything else raises
`TypeError`. -/
def globValues : Value → Except RuleError (List Value)
  | .str s => .ok [.str s]
  | .list xs => .ok xs
  | .dict xs => .ok (xs.map (fun kv => Value.str kv.1))
  | v => .error (.typeError ("\x22" ++ v.typeName ++ "\x22 object is not iterable"))

/-- The message of the `InvalidRuleSchema` raised when `paths:` is not a
mapping. -/
def pathsObjectMsg : String :=
  "the `paths:` targeting rules must be an object with at least one of " ++
    Value.render (.list (ALLOWED_GLOB_TYPES.map .str))

/-- The message of the `InvalidRuleSchema` raised for an unknown `paths:`
rule-type name. -/
def globTypeMsg : String :=
  "the `paths:` targeting rules must each be one of " ++
    Value.render (.list (ALLOWED_GLOB_TYPES.map .str))

/-- The `paths:` entry loop of `Rule._build_globs`: reserved `__` keys are
skipped, unknown rule types raise `InvalidRuleSchema`, and each value is
added to the exclude set for the `exclude` rule type and to the include set
otherwise — verbatim, via `glob_set.add`. -/
def globLoop (globs : RuleGlobs) : List (String × Value) → Except RuleError RuleGlobs
  | [] => .ok globs
  | (ruleType, rule) :: rest =>
    if pyStartsWith ruleType "__" then globLoop globs rest
    else if ALLOWED_GLOB_TYPES.contains ruleType then do
      let vals ← globValues rule
      if ruleType = "exclude" then
        let ex ← setAddAll globs.excludeGlobs vals
        globLoop ⟨globs.includeGlobs, ex⟩ rest
      else
        let inc ← setAddAll globs.includeGlobs vals
        globLoop ⟨inc, globs.excludeGlobs⟩ rest
    else .error (.invalidRuleSchema globTypeMsg)

/-- `Rule._build_globs`: `rule_raw.get("paths", {})` must be a mapping
(otherwise `InvalidRuleSchema`), then the entry loop over its items starting
from two empty sets. -/
def buildGlobs (ruleRaw : List (String × Value)) : Except RuleError RuleGlobs :=
  match (dictGet ruleRaw "paths").getD (.dict []) with
  | .dict pathPairs => globLoop ⟨[], []⟩ pathPairs
  | _ => .error (.invalidRuleSchema pathsObjectMsg)

/-- The compiled `Rule` object: the stored raw document plus the two values
computed by `__init__` (`_expression`, `_globs`). -/
structure Rule where
  raw : List (String × Value)
  expression : BooleanRuleExpression
  globs : RuleGlobs

/-- `Rule.__init__`: store the raw mapping unchanged, build the boolean
expression, then build the globs; either failure propagates and no `Rule` is
produced. -/
def Rule.build (raw : List (String × Value)) : Except RuleError Rule := do
  let e ← buildBooleanExpression raw
  let g ← buildGlobs raw
  .ok ⟨raw, e, g⟩

/-- Python `str(x)` as used by the accessors (`str(self._raw["id"])` and
friends); for non-strings the rendering caveat of `Value.render` applies. -/
def pyStr : Value → String
  | .str s => s
  | v => v.render

/-- The `Rule.id` property: `str(self._raw["id"])`, `KeyError` when
absent. -/
def Rule.idStr (r : Rule) : Except RuleError String :=
  (dictGetItem r.raw "id").map pyStr

/-- The `Rule.message` property: `str(self._raw["message"])`, `KeyError`
when absent. -/
def Rule.message (r : Rule) : Except RuleError String :=
  (dictGetItem r.raw "message").map pyStr

/-- The `Rule.metadata` property: `self._raw.get("metadata", {})`. -/
def Rule.metadata (r : Rule) : Value :=
  (dictGet r.raw "metadata").getD (.dict [])

/-- The `Rule.severity` property: `str(self._raw["severity"])`, `KeyError`
when absent. -/
def Rule.severity (r : Rule) : Except RuleError String :=
  (dictGetItem r.raw "severity").map pyStr

/-- The `Rule.sarif_severity` property: the fixed table
`INFO→note, ERROR→error, WARNING→warning`; any other severity raises
`KeyError` (the Python mapping subscript fails fast). -/
def Rule.sarifSeverity (r : Rule) : Except RuleError String := do
  let s ← r.severity
  if s = "INFO" then .ok "note"
  else if s = "ERROR" then .ok "error"
  else if s = "WARNING" then .ok "warning"
  else .error (.keyError s)

/-- Python `k in x` as used by `sarif_tags` on the metadata value: key
membership for mappings, substring for strings, element equality for lists,
`TypeError` otherwise. -/
def pyIn (k : String) : Value → Except RuleError Bool
  | .dict xs => .ok (xs.any (fun kv => kv.1 == k))
  | .str s => .ok (decide (List.IsInfix k.data s.data))
  | .list xs => .ok (xs.any (fun v => match v with | .str t => t == k | _ => false))
  | v => .error (.typeError ("argument of type \x22" ++ v.typeName ++ "\x22 is not iterable"))

/-- The `Rule.sarif_tags` property, drained: yields `"cwe"` when the
metadata contains `cwe`, then `"owasp"` when it contains `owasp`, nothing
else. -/
def Rule.sarifTags (r : Rule) : Except RuleError (List String) := do
  let hasCwe ← pyIn "cwe" r.metadata
  let hasOwasp ← pyIn "owasp" r.metadata
  .ok ((if hasCwe then ["cwe"] else []) ++ (if hasOwasp then ["owasp"] else []))

/-- The `Rule.languages` property: `self._raw["languages"]`, `KeyError`
when absent. -/
def Rule.languages (r : Rule) : Except RuleError Value :=
  dictGetItem r.raw "languages"

/-- The `Rule.fix` property: `self._raw.get("fix")`. -/
def Rule.fix (r : Rule) : Option Value :=
  dictGet r.raw "fix"

/-- `Rule.to_json`: returns `self._raw` itself. -/
def Rule.toJson (r : Rule) : List (String × Value) :=
  r.raw

/-- `Rule.to_sarif`: the SARIF rule-descriptor fragment, with the Python
dict literal's entries evaluated in order (`id`, `name`, descriptions,
`defaultConfiguration.level`, `properties.tags`). -/
def Rule.toSarif (r : Rule) : Except RuleError Value := do
  let i ← r.idStr
  let msg ← r.message
  let lvl ← r.sarifSeverity
  let tags ← r.sarifTags
  .ok (.dict
    [("id", .str i),
     ("name", .str i),
     ("shortDescription", .dict [("text", .str msg)]),
     ("fullDescription", .dict [("text", .str msg)]),
     ("defaultConfiguration", .dict [("level", .str lvl)]),
     ("properties", .dict
       [("precision", .str "very-high"),
        ("tags", .list (tags.map .str))])])

mutual
/-- All nodes of an expression tree: the node itself followed by the nodes
of its children, in document order. -/
def allNodes : BooleanRuleExpression → List BooleanRuleExpression
  | .mk op pid (some cs) t sp => .mk op pid (some cs) t sp :: allNodesList cs
  | .mk op pid none t sp => [.mk op pid none t sp]

/-- All nodes of a forest, in document order. -/
def allNodesList : List BooleanRuleExpression → List BooleanRuleExpression
  | [] => []
  | e :: rest => allNodes e ++ allNodesList rest
end

/-- The leaf nodes of a tree: the nodes carrying a `pattern_text`
(`operand`). -/
def leafNodes (e : BooleanRuleExpression) : List BooleanRuleExpression :=
  (allNodes e).filter (fun n => n.operand.isSome)

/-- The `pattern_id`s of the leaf nodes, in document order. -/
def leafIds (e : BooleanRuleExpression) : List (Option Value) :=
  (leafNodes e).map BooleanRuleExpression.pattern_id

mutual
/-- The number of pattern-string values found transitively in a document
value: strings nested (through lists and mappings) below it. -/
def stringCount : Value → Nat
  | .str _ => 1
  | .list xs => stringCountList xs
  | .dict xs => stringCountPairs xs
  | _ => 0

/-- `stringCount` over list elements. -/
def stringCountList : List Value → Nat
  | [] => 0
  | v :: rest => stringCount v + stringCountList rest

/-- `stringCount` over mapping values. -/
def stringCountPairs : List (String × Value) → Nat
  | [] => 0
  | kv :: rest => stringCount kv.2 + stringCountPairs rest
end

/-- The operator/identifier shape of a tree: everything the determinism
claim compares (operator structure and `pattern_id`s), with pattern text
and spans erased. -/
inductive ExprShape where
  | node (op : Operator) (pid : Option Value) (children : Option (List ExprShape))

mutual
/-- Shape erasure of a tree. -/
def shapeOf : BooleanRuleExpression → ExprShape
  | .mk op pid (some cs) _ _ => .node op pid (some (shapeOfList cs))
  | .mk op pid none _ _ => .node op pid none

/-- Shape erasure of a forest. -/
def shapeOfList : List BooleanRuleExpression → List ExprShape
  | [] => []
  | e :: rest => shapeOf e :: shapeOfList rest
end

/-- `needle` occurs somewhere in `hay`. -/
def mentions (needle hay : String) : Prop :=
  ∃ a b, hay = a ++ needle ++ b

/-- The `paths` document of the spec's first glob example:
`paths: {include: [tests]}`. -/
def c1docDirectory : List (String × Value) :=
  [("paths", .dict [("include", .list [.str "tests"])])]

/-- The `paths` document of the spec's second glob example:
`paths: {include: ["*.js"]}`. -/
def c1docWildcard : List (String × Value) :=
  [("paths", .dict [("include", .list [.str "*.js"])])]

/-- The `paths` document of the spec's third glob example:
`paths: {exclude: "build/output"}`. -/
def c1docPathlike : List (String × Value) :=
  [("paths", .dict [("exclude", .str "build/output")])]

/-- A composite element `{"patterns": [{"pattern": "a"}]}`. -/
def c2elemA : Value := .dict [("patterns", .list [.dict [("pattern", .str "a")]])]

/-- A composite element `{"patterns": [{"pattern": "b"}]}`. -/
def c2elemB : Value := .dict [("patterns", .list [.dict [("pattern", .str "b")]])]

/-- A well-formed composite rule with two sibling nested `patterns` lists:
`{id: r, patterns: [{patterns: [{pattern: a}]}, {patterns: [{pattern: b}]}]}`. -/
def c2doc : List (String × Value) :=
  [("id", .str "r"), ("patterns", .list [c2elemA, c2elemB])]

/-- C1: the claim says each glob string is normalized before entering the
Glob Set (`tests` → `tests/**`, `*.js` → `**/*.js`); `_build_globs` in fact
adds every value verbatim via `glob_set.add(rule_value)` — the normalization
its own docstring documents is nowhere performed.  Evaluating the code on
the spec's three examples: the bare directory name and the bare filename
wildcard stay verbatim (contradicting the claim), and only the path-like
value behaves as claimed. -/
theorem c1_globs_added_verbatim :
    buildGlobs c1docDirectory = .ok ⟨[.str "tests"], []⟩ ∧
    buildGlobs c1docWildcard = .ok ⟨[.str "*.js"], []⟩ ∧
    buildGlobs c1docPathlike = .ok ⟨[], [.str "build/output"]⟩ := by
  refine ⟨?_, ?_, ?_⟩ <;>
    simp [buildGlobs, dictGet, globLoop, c1docDirectory, c1docWildcard, c1docPathlike,
      setAddAll, setAdd, globValues] <;> rfl

/-- C2: on the document `c2doc` the compiled tree has two leaves — matching
the two pattern strings in the input, so the leaf-count half of the claim
holds here — but both leaves carry the same `pattern_id` `.0.0`, because
`_parse_boolean_expression` increments its counter only on string leaves and
the two sibling nested lists therefore share the prefix `.0`; the
uniqueness half of the claim is false. -/
theorem c2_duplicate_pattern_ids :
    (buildBooleanExpression c2doc).map leafIds =
      .ok [some (.str ".0.0"), some (.str ".0.0")] ∧
    (buildBooleanExpression c2doc).map (fun e => (leafNodes e).length) = .ok 2 ∧
    stringCount (.list [c2elemA, c2elemB]) = 2 := by
  refine ⟨?_, ?_, ?_⟩ <;>
    simp [buildBooleanExpression, parseBooleanExpression, parseElems, parsePairs, findTruthy,
      dictGet, dictGetItem, c2doc, c2elemA, c2elemB, patternNamesForOperator,
      operatorForPatternName, Value.truthy, allNodes, allNodesList, leafIds, leafNodes,
      stringCount, stringCountList, stringCountPairs] <;> rfl

/-- Inversion for a successful `Except` bind. -/
theorem bind_ok {ε α β : Type} {x : Except ε α} {f : α → Except ε β} {b : β}
    (h : x >>= f = .ok b) : ∃ a, x = .ok a ∧ f a = .ok b := by
  cases x with
  | error e => exact absurd h (by simp [Bind.bind, Except.bind])
  | ok a => exact ⟨a, rfl, by simpa [Bind.bind, Except.bind] using h⟩

/-- A node has its `children` field or its `operand` (pattern text) field
set, and never both: the presence half of the spec's node invariant. -/
def presentXor (n : BooleanRuleExpression) : Bool :=
  n.children.isSome ^^ n.operand.isSome

/-- The claim's per-node invariant exactly as stated: `children` present
*and non-empty* (composite), or `pattern_text` present (leaf) — never both,
never neither. -/
def specNodeExactlyOne (n : BooleanRuleExpression) : Bool :=
  (match n.children with | some (_ :: _) => true | _ => false) ^^ n.operand.isSome

/-- A well-formed rule whose nested `pattern-either` value is the empty
list: `{id: r, patterns: [{pattern-either: []}]}`. -/
def c3doc : List (String × Value) :=
  [("id", .str "r"), ("patterns", .list [.dict [("pattern-either", .list [])]])]

/-- Membership in the node list of a forest. -/
theorem mem_allNodesList {m : BooleanRuleExpression} :
    ∀ {cs : List BooleanRuleExpression},
      m ∈ allNodesList cs ↔ ∃ e ∈ cs, m ∈ allNodes e := by
  intro cs
  induction cs with
  | nil => simp [allNodesList]
  | cons e rest ih => simp [allNodesList, ih]

/-- Every node produced by the pattern-list parser satisfies `presentXor`:
composite nodes always carry `children` (possibly empty) and no operand,
leaves always carry an operand and no `children`. -/
theorem parseElems_presentXor :
    ∀ (pats : List Value) (pid : Nat) (pfx : String)
      (es : List BooleanRuleExpression) (n : Nat),
      parseElems pats pid pfx = .ok (es, n) →
      ∀ e ∈ es, ∀ m ∈ allNodes e, presentXor m = true := by
  refine parseElems.induct
    (fun pats pid pfx => ∀ es n, parseElems pats pid pfx = .ok (es, n) →
      ∀ e ∈ es, ∀ m ∈ allNodes e, presentXor m = true)
    (fun elem pairs pid pfx => ∀ es n, parsePairs elem pairs pid pfx = .ok (es, n) →
      ∀ e ∈ es, ∀ m ∈ allNodes e, presentXor m = true)
    ?_ ?_ ?_ ?_ ?_ ?_ ?_ ?_ ?_
  · intro pid pfx es n h
    rw [parseElems] at h
    simp only [Except.ok.injEq, Prod.mk.injEq] at h
    intro e he
    rw [← h.1] at he
    simp at he
  · intro rest pid pfx xs ih2 ih1 es n h
    rw [parseElems] at h
    obtain ⟨⟨es1, pid1⟩, h1, h⟩ := bind_ok h
    obtain ⟨⟨more, pid2⟩, h2, h⟩ := bind_ok h
    simp at h
    intro e he
    rw [← h.1] at he
    rcases List.mem_append.mp he with he | he
    · exact ih2 es1 pid1 h1 e he
    · exact ih1 pid1 more pid2 h2 e he
  · intro p rest pid pfx hnd es n h
    cases p with
    | dict xs => exact absurd rfl (hnd xs)
    | str s => rw [parseElems.eq_def] at h; simp at h
    | int i => rw [parseElems.eq_def] at h; simp at h
    | bool b => rw [parseElems.eq_def] at h; simp at h
    | null => rw [parseElems.eq_def] at h; simp at h
    | list xs => rw [parseElems.eq_def] at h; simp at h
  · intro elem pid pfx es n h
    rw [parsePairs] at h
    simp only [Except.ok.injEq, Prod.mk.injEq] at h
    intro e he
    rw [← h.1] at he
    simp at he
  · intro elem k v rest pid pfx hsk ih es n h
    rw [parsePairs, if_pos hsk] at h
    exact ih es n h
  · intro elem k v rest pid pfx hsk hop es n h
    rw [parsePairs, if_neg hsk, hop] at h
    simp at h
  · intro elem k rest pid pfx hsk op hop l ih1 ih2 es n h
    rw [parsePairs, if_neg hsk, hop] at h
    obtain ⟨⟨sub, m1⟩, h1, h⟩ := bind_ok h
    obtain ⟨⟨more, pid2⟩, h2, h⟩ := bind_ok h
    simp at h
    intro e he
    rw [← h.1] at he
    rcases List.mem_cons.mp he with rfl | he
    · intro m hm
      rw [allNodes] at hm
      rcases List.mem_cons.mp hm with rfl | hm
      · simp [presentXor, BooleanRuleExpression.children, BooleanRuleExpression.operand]
      · obtain ⟨e2, he2, hm2⟩ := mem_allNodesList.mp hm
        exact ih1 sub m1 h1 e2 he2 m hm2
    · exact ih2 more pid2 h2 e he
  · intro elem k rest pid pfx hsk op hop s ih es n h
    rw [parsePairs, if_neg hsk, hop] at h
    obtain ⟨⟨more, pid2⟩, h2, h⟩ := bind_ok h
    simp at h
    intro e he
    rw [← h.1] at he
    rcases List.mem_cons.mp he with rfl | he
    · intro m hm
      rw [allNodes] at hm
      simp at hm
      simp [hm, presentXor, BooleanRuleExpression.children, BooleanRuleExpression.operand]
    · exact ih more pid2 h2 e he
  · intro elem k v rest pid pfx hsk op hop hnl hns es n h
    rw [parsePairs, if_neg hsk, hop] at h
    rcases v with s | i | b | _ | xs | xs <;> simp at h
    · exact absurd rfl (hns s)
    · exact absurd rfl (hnl xs)

/-- The `presentXor` invariant lifted through the `_parse_boolean_expression`
entry point. -/
theorem parseBooleanExpression_presentXor :
    ∀ (v parent : Value) (pid : Nat) (pfx : String) (cs : List BooleanRuleExpression),
      parseBooleanExpression v parent pid pfx = .ok cs →
      ∀ e ∈ cs, ∀ m ∈ allNodes e, presentXor m = true := by
  intro v parent pid pfx cs h
  cases v with
  | list pats =>
    rw [parseBooleanExpression] at h
    rcases hp : parseElems pats pid pfx with err | ⟨es, n⟩ <;> rw [hp] at h <;>
      simp [Except.map] at h
    rw [← h]
    exact parseElems_presentXor pats pid pfx es n hp
  | str s => rw [parseBooleanExpression.eq_def] at h; simp at h
  | int i => rw [parseBooleanExpression.eq_def] at h; simp at h
  | bool b => rw [parseBooleanExpression.eq_def] at h; simp at h
  | null => rw [parseBooleanExpression.eq_def] at h; simp at h
  | dict xs => rw [parseBooleanExpression.eq_def] at h; simp at h

/-- C3 (amended): for every node of any compiled Boolean Expression Tree,
exactly one of `children` present or `pattern_text` present holds — never
both, never neither.  (The original claim additionally required present
`children` to be non-empty; `c3_counterexample` shows a composite node with
an empty `children` list, produced from a nested operator whose value is the
empty list.) -/
theorem c3_node_children_xor_pattern_text :
    ∀ (raw : List (String × Value)) (e : BooleanRuleExpression),
      buildBooleanExpression raw = .ok e →
      ∀ m ∈ allNodes e, presentXor m = true := by
  intro raw e h
  rw [buildBooleanExpression] at h
  cases h1 : findTruthy raw (patternNamesForOperator .opAnd) with
  | some v =>
    rw [h1] at h
    obtain ⟨i, hi, h⟩ := bind_ok h
    simp at h
    rw [← h, allNodes]
    simp [presentXor, BooleanRuleExpression.children, BooleanRuleExpression.operand]
  | none =>
  rw [h1] at h
  cases h2 : findTruthy raw (patternNamesForOperator .opRegex) with
  | some v =>
    rw [h2] at h
    obtain ⟨i, hi, h⟩ := bind_ok h
    simp at h
    rw [← h, allNodes]
    simp [presentXor, BooleanRuleExpression.children, BooleanRuleExpression.operand]
  | none =>
  rw [h2] at h
  cases h3 : findTruthy raw (patternNamesForOperator .opAndAll) with
  | some v =>
    rw [h3] at h
    obtain ⟨cs, hcs, h⟩ := bind_ok h
    simp at h
    rw [← h]
    intro m hm
    rw [allNodes] at hm
    rcases List.mem_cons.mp hm with rfl | hm
    · simp [presentXor, BooleanRuleExpression.children, BooleanRuleExpression.operand]
    · obtain ⟨e2, he2, hm2⟩ := mem_allNodesList.mp hm
      exact parseBooleanExpression_presentXor v (.dict raw) 0 "" cs hcs e2 he2 m hm2
  | none =>
  rw [h3] at h
  cases h4 : findTruthy raw (patternNamesForOperator .opAndEither) with
  | some v =>
    rw [h4] at h
    obtain ⟨cs, hcs, h⟩ := bind_ok h
    simp at h
    rw [← h]
    intro m hm
    rw [allNodes] at hm
    rcases List.mem_cons.mp hm with rfl | hm
    · simp [presentXor, BooleanRuleExpression.children, BooleanRuleExpression.operand]
    · obtain ⟨e2, he2, hm2⟩ := mem_allNodesList.mp hm
      exact parseBooleanExpression_presentXor v (.dict raw) 0 "" cs hcs e2 he2 m hm2
  | none =>
  rw [h4] at h
  simp at h

/-- The tree compiled from `c3doc`. -/
def c3tree : BooleanRuleExpression :=
  .mk .opAndAll none
    (some [.mk .opAndEither none (some []) none
      (some ⟨.dict [("pattern-either", .list [])]⟩)])
    none (some ⟨.dict c3doc⟩)

/-- Evaluation of the compiler on `c3doc`. -/
theorem c3doc_eval : buildBooleanExpression c3doc = .ok c3tree := by
  simp [buildBooleanExpression, parseBooleanExpression, parseElems, parsePairs, findTruthy,
    dictGet, dictGetItem, c3doc, patternNamesForOperator, operatorForPatternName,
    Value.truthy, c3tree, Span.fromDict]
  rfl

/-- Witness for `c3_node_children_xor_pattern_text` at `c3doc`. -/
theorem c3_node_children_xor_pattern_text_witness :
    buildBooleanExpression c3doc = .ok c3tree ∧
      (allNodes c3tree).all presentXor = true :=
  ⟨c3doc_eval, List.all_eq_true.mpr
    (fun m hm => c3_node_children_xor_pattern_text c3doc c3tree c3doc_eval m hm)⟩

/-- C3 counterexample: on `c3doc` (nested `pattern-either: []`) compilation
succeeds but the tree contains a node with `children` present and *empty*
and no `pattern_text` — the claim's "children present and non-empty or
pattern_text present, never neither" is violated. -/
theorem c3_counterexample :
    (buildBooleanExpression c3doc).map (fun e => (allNodes e).all specNodeExactlyOne) =
      .ok false := by
  simp [buildBooleanExpression, parseBooleanExpression, parseElems, parsePairs, findTruthy,
    dictGet, dictGetItem, c3doc, patternNamesForOperator, operatorForPatternName,
    Value.truthy, allNodes, allNodesList, specNodeExactlyOne,
    BooleanRuleExpression.children, BooleanRuleExpression.operand]
  rfl

/-- Branch equation of `_build_boolean_expression`: the `AND` family
matches. -/
theorem buildBooleanExpression_and (raw : List (String × Value)) (v : Value)
    (h1 : findTruthy raw (patternNamesForOperator .opAnd) = some v) :
    buildBooleanExpression raw =
      (dictGetItem raw "id").map
        (fun i => .mk .opAnd (some i) none (some v) (Span.fromDict (.dict raw))) := by
  rw [buildBooleanExpression, h1]
  rcases hx : dictGetItem raw "id" with err | i <;>
    simp [hx, Except.map, Bind.bind, Except.bind]

/-- Branch equation of `_build_boolean_expression`: `AND` misses and
`REGEX` matches. -/
theorem buildBooleanExpression_regex (raw : List (String × Value)) (v : Value)
    (h1 : findTruthy raw (patternNamesForOperator .opAnd) = none)
    (h2 : findTruthy raw (patternNamesForOperator .opRegex) = some v) :
    buildBooleanExpression raw =
      (dictGetItem raw "id").map
        (fun i => .mk .opRegex (some i) none (some v) (Span.fromDict (.dict raw))) := by
  rw [buildBooleanExpression, h1, h2]
  rcases hx : dictGetItem raw "id" with err | i <;>
    simp [hx, Except.map, Bind.bind, Except.bind]

/-- Branch equation of `_build_boolean_expression`: the single-pattern
families miss and `AND_ALL` matches. -/
theorem buildBooleanExpression_andall (raw : List (String × Value)) (v : Value)
    (h1 : findTruthy raw (patternNamesForOperator .opAnd) = none)
    (h2 : findTruthy raw (patternNamesForOperator .opRegex) = none)
    (h3 : findTruthy raw (patternNamesForOperator .opAndAll) = some v) :
    buildBooleanExpression raw =
      (parseBooleanExpression v (.dict raw) 0 "").map
        (fun cs => .mk .opAndAll none (some cs) none (Span.fromDict (.dict raw))) := by
  rw [buildBooleanExpression, h1, h2, h3]
  rcases hx : parseBooleanExpression v (.dict raw) 0 "" with err | cs <;>
    simp [hx, Except.map, Bind.bind, Except.bind]

/-- Branch equation of `_build_boolean_expression`: only `AND_EITHER`
matches. -/
theorem buildBooleanExpression_andeither (raw : List (String × Value)) (v : Value)
    (h1 : findTruthy raw (patternNamesForOperator .opAnd) = none)
    (h2 : findTruthy raw (patternNamesForOperator .opRegex) = none)
    (h3 : findTruthy raw (patternNamesForOperator .opAndAll) = none)
    (h4 : findTruthy raw (patternNamesForOperator .opAndEither) = some v) :
    buildBooleanExpression raw =
      (parseBooleanExpression v (.dict raw) 0 "").map
        (fun cs => .mk .opAndEither none (some cs) none (Span.fromDict (.dict raw))) := by
  rw [buildBooleanExpression, h1, h2, h3, h4]
  rcases hx : parseBooleanExpression v (.dict raw) 0 "" with err | cs <;>
    simp [hx, Except.map, Bind.bind, Except.bind]

/-- Branch equation of `_build_boolean_expression`: no family matches. -/
theorem buildBooleanExpression_nomatch (raw : List (String × Value))
    (h1 : findTruthy raw (patternNamesForOperator .opAnd) = none)
    (h2 : findTruthy raw (patternNamesForOperator .opRegex) = none)
    (h3 : findTruthy raw (patternNamesForOperator .opAndAll) = none)
    (h4 : findTruthy raw (patternNamesForOperator .opAndEither) = none) :
    buildBooleanExpression raw = .error (.invalidRuleSchema missingPatternTypeMsg) := by
  rw [buildBooleanExpression, h1, h2, h3, h4]

/-- C4: for a rule whose recognized family is `AND` (bare `pattern` key with
truthy value) the compiled tree is a single leaf whose `pattern_id` is the
rule's own raw `id` value and whose `pattern_text` is the key's value, with
no recursion; likewise for `REGEX` (`pattern-regex` key) when the `AND`
family does not match. -/
theorem c4_single_pattern_leaf :
    ∀ (raw : List (String × Value)) (i v : Value),
      dictGet raw "id" = some i →
      ((findTruthy raw (patternNamesForOperator .opAnd) = some v →
        buildBooleanExpression raw =
          .ok (.mk .opAnd (some i) none (some v) (Span.fromDict (.dict raw)))) ∧
       (findTruthy raw (patternNamesForOperator .opAnd) = none →
        findTruthy raw (patternNamesForOperator .opRegex) = some v →
        buildBooleanExpression raw =
          .ok (.mk .opRegex (some i) none (some v) (Span.fromDict (.dict raw))))) := by
  intro raw i v hid
  constructor
  · intro h1
    rw [buildBooleanExpression_and raw v h1, dictGetItem, hid]
    rfl
  · intro h1 h2
    rw [buildBooleanExpression_regex raw v h1 h2, dictGetItem, hid]
    rfl

/-- A single-`pattern` rule document. -/
def c4docAnd : List (String × Value) :=
  [("id", .str "rid"), ("pattern", .str "x")]

/-- A single-`pattern-regex` rule document. -/
def c4docRegex : List (String × Value) :=
  [("id", .str "rid2"), ("pattern-regex", .str "y")]

/-- Witness for `c4_single_pattern_leaf` on concrete `AND` and `REGEX`
rules. -/
theorem c4_single_pattern_leaf_witness :
    buildBooleanExpression c4docAnd =
      .ok (.mk .opAnd (some (.str "rid")) none (some (.str "x"))
        (Span.fromDict (.dict c4docAnd))) ∧
    buildBooleanExpression c4docRegex =
      .ok (.mk .opRegex (some (.str "rid2")) none (some (.str "y"))
        (Span.fromDict (.dict c4docRegex))) :=
  ⟨(c4_single_pattern_leaf c4docAnd (.str "rid") (.str "x") rfl).1 rfl,
   (c4_single_pattern_leaf c4docRegex (.str "rid2") (.str "y") rfl).2 rfl rfl⟩

/-- The rendering of `missingPatternTypeMsg`. -/
theorem missingPatternTypeMsg_eval :
    missingPatternTypeMsg =
      "missing a pattern type in rule, expected one of [\x22pattern\x22, \x22pattern-regex\x22, \x22patterns\x22, \x22pattern-either\x22]" := by
  simp [missingPatternTypeMsg, patternNamesForOperators, YAML_VALID_TOP_LEVEL_OPERATORS,
    patternNamesForOperator, Value.render, Value.renderElems]

/-- C5: top-level dispatch tries `AND`, `REGEX`, `AND_ALL`, `AND_EITHER` in
that fixed order and uses the first family whose key is present with a
truthy value, whatever other family keys the document also carries; when no
family matches it fails with a SchemaError whose message names every
accepted top-level pattern key. -/
theorem c5_dispatch_first_family_wins :
    ∀ (raw : List (String × Value)),
      (∀ v, findTruthy raw (patternNamesForOperator .opAnd) = some v →
        buildBooleanExpression raw =
          (dictGetItem raw "id").map
            (fun i => .mk .opAnd (some i) none (some v) (Span.fromDict (.dict raw)))) ∧
      (∀ v, findTruthy raw (patternNamesForOperator .opAnd) = none →
        findTruthy raw (patternNamesForOperator .opRegex) = some v →
        buildBooleanExpression raw =
          (dictGetItem raw "id").map
            (fun i => .mk .opRegex (some i) none (some v) (Span.fromDict (.dict raw)))) ∧
      (∀ v, findTruthy raw (patternNamesForOperator .opAnd) = none →
        findTruthy raw (patternNamesForOperator .opRegex) = none →
        findTruthy raw (patternNamesForOperator .opAndAll) = some v →
        buildBooleanExpression raw =
          (parseBooleanExpression v (.dict raw) 0 "").map
            (fun cs => .mk .opAndAll none (some cs) none (Span.fromDict (.dict raw)))) ∧
      (∀ v, findTruthy raw (patternNamesForOperator .opAnd) = none →
        findTruthy raw (patternNamesForOperator .opRegex) = none →
        findTruthy raw (patternNamesForOperator .opAndAll) = none →
        findTruthy raw (patternNamesForOperator .opAndEither) = some v →
        buildBooleanExpression raw =
          (parseBooleanExpression v (.dict raw) 0 "").map
            (fun cs => .mk .opAndEither none (some cs) none (Span.fromDict (.dict raw)))) ∧
      (findTruthy raw (patternNamesForOperator .opAnd) = none →
        findTruthy raw (patternNamesForOperator .opRegex) = none →
        findTruthy raw (patternNamesForOperator .opAndAll) = none →
        findTruthy raw (patternNamesForOperator .opAndEither) = none →
        buildBooleanExpression raw = .error (.invalidRuleSchema missingPatternTypeMsg) ∧
        ∀ k ∈ patternNamesForOperators YAML_VALID_TOP_LEVEL_OPERATORS,
          mentions k missingPatternTypeMsg) := by
  intro raw
  refine ⟨fun v h1 => buildBooleanExpression_and raw v h1,
    fun v h1 h2 => buildBooleanExpression_regex raw v h1 h2,
    fun v h1 h2 h3 => buildBooleanExpression_andall raw v h1 h2 h3,
    fun v h1 h2 h3 h4 => buildBooleanExpression_andeither raw v h1 h2 h3 h4,
    fun h1 h2 h3 h4 => ⟨buildBooleanExpression_nomatch raw h1 h2 h3 h4, ?_⟩⟩
  intro k hk
  rw [missingPatternTypeMsg_eval]
  simp [patternNamesForOperators, YAML_VALID_TOP_LEVEL_OPERATORS,
    patternNamesForOperator] at hk
  rcases hk with rfl | rfl | rfl | rfl
  · exact ⟨"missing a pattern type in rule, expected one of [\x22",
      "\x22, \x22pattern-regex\x22, \x22patterns\x22, \x22pattern-either\x22]", rfl⟩
  · exact ⟨"missing a pattern type in rule, expected one of [\x22pattern\x22, \x22",
      "\x22, \x22patterns\x22, \x22pattern-either\x22]", rfl⟩
  · exact ⟨"missing a pattern type in rule, expected one of [\x22pattern\x22, \x22pattern-regex\x22, \x22",
      "\x22, \x22pattern-either\x22]", rfl⟩
  · exact ⟨"missing a pattern type in rule, expected one of [\x22pattern\x22, \x22pattern-regex\x22, \x22patterns\x22, \x22",
      "\x22]", rfl⟩

/-- A document carrying both a truthy `pattern` key and a truthy `patterns`
key. -/
def c5docBoth : List (String × Value) :=
  [("id", .str "r"), ("pattern", .str "p"),
   ("patterns", .list [.dict [("pattern", .str "q")]])]

/-- A document with none of the four pattern family keys. -/
def c5docNone : List (String × Value) :=
  [("id", .str "r"), ("message", .str "m")]

/-- Witness for `c5_dispatch_first_family_wins`: with both `pattern` and
`patterns` present the `AND` family wins, and with no family present the
enumerating SchemaError is raised. -/
theorem c5_dispatch_first_family_wins_witness :
    buildBooleanExpression c5docBoth =
      .ok (.mk .opAnd (some (.str "r")) none (some (.str "p"))
        (Span.fromDict (.dict c5docBoth))) ∧
    buildBooleanExpression c5docNone = .error (.invalidRuleSchema missingPatternTypeMsg) ∧
    mentions "pattern-either" missingPatternTypeMsg := by
  refine ⟨?_, ?_, ?_⟩
  · have h := (c5_dispatch_first_family_wins c5docBoth).1 (.str "p") rfl
    rw [h]
    rfl
  · exact ((c5_dispatch_first_family_wins c5docNone).2.2.2.2 rfl rfl rfl rfl).1
  · exact ((c5_dispatch_first_family_wins c5docNone).2.2.2.2 rfl rfl rfl rfl).2
      "pattern-either" (by simp [patternNamesForOperators, YAML_VALID_TOP_LEVEL_OPERATORS,
        patternNamesForOperator])

/-- C6: when the first matching family is `AND_ALL` (`patterns` key) but its
value is not a list, compilation fails with a SchemaError whose message
mentions "expected list" and names the observed type of the value. -/
theorem c6_patterns_must_be_list :
    ∀ (raw : List (String × Value)) (v : Value),
      findTruthy raw (patternNamesForOperator .opAnd) = none →
      findTruthy raw (patternNamesForOperator .opRegex) = none →
      findTruthy raw (patternNamesForOperator .opAndAll) = some v →
      (∀ xs, v ≠ .list xs) →
      ∃ m, buildBooleanExpression raw = .error (.invalidRuleSchema m) ∧
        mentions "expected list" m ∧ mentions v.typeName m := by
  intro raw v h1 h2 h3 hnl
  rw [buildBooleanExpression_andall raw v h1 h2 h3]
  cases v with
  | list xs => exact absurd rfl (hnl xs)
  | str s =>
    refine ⟨"invalid type for `patterns`\ninvalid type for `patterns` (expected list, found str)\nperhaps your YAML is missing a `-`?",
      by rw [parseBooleanExpression.eq_def]; rfl, ?_, ?_⟩
    · exact ⟨"invalid type for `patterns`\ninvalid type for `patterns` (",
        ", found str)\nperhaps your YAML is missing a `-`?", rfl⟩
    · exact ⟨"invalid type for `patterns`\ninvalid type for `patterns` (expected list, found ",
        ")\nperhaps your YAML is missing a `-`?", rfl⟩
  | int i =>
    refine ⟨"invalid type for `patterns`\ninvalid type for `patterns` (expected list, found int)\nperhaps your YAML is missing a `-`?",
      by rw [parseBooleanExpression.eq_def]; rfl, ?_, ?_⟩
    · exact ⟨"invalid type for `patterns`\ninvalid type for `patterns` (",
        ", found int)\nperhaps your YAML is missing a `-`?", rfl⟩
    · exact ⟨"invalid type for `patterns`\ninvalid type for `patterns` (expected list, found ",
        ")\nperhaps your YAML is missing a `-`?", rfl⟩
  | bool b =>
    refine ⟨"invalid type for `patterns`\ninvalid type for `patterns` (expected list, found bool)\nperhaps your YAML is missing a `-`?",
      by rw [parseBooleanExpression.eq_def]; rfl, ?_, ?_⟩
    · exact ⟨"invalid type for `patterns`\ninvalid type for `patterns` (",
        ", found bool)\nperhaps your YAML is missing a `-`?", rfl⟩
    · exact ⟨"invalid type for `patterns`\ninvalid type for `patterns` (expected list, found ",
        ")\nperhaps your YAML is missing a `-`?", rfl⟩
  | null =>
    refine ⟨"invalid type for `patterns`\ninvalid type for `patterns` (expected list, found NoneType)\nperhaps your YAML is missing a `-`?",
      by rw [parseBooleanExpression.eq_def]; rfl, ?_, ?_⟩
    · exact ⟨"invalid type for `patterns`\ninvalid type for `patterns` (",
        ", found NoneType)\nperhaps your YAML is missing a `-`?", rfl⟩
    · exact ⟨"invalid type for `patterns`\ninvalid type for `patterns` (expected list, found ",
        ")\nperhaps your YAML is missing a `-`?", rfl⟩
  | dict xs =>
    refine ⟨"invalid type for `patterns`\ninvalid type for `patterns` (expected list, found dict)\nperhaps your YAML is missing a `-`?",
      by rw [parseBooleanExpression.eq_def]; rfl, ?_, ?_⟩
    · exact ⟨"invalid type for `patterns`\ninvalid type for `patterns` (",
        ", found dict)\nperhaps your YAML is missing a `-`?", rfl⟩
    · exact ⟨"invalid type for `patterns`\ninvalid type for `patterns` (expected list, found ",
        ")\nperhaps your YAML is missing a `-`?", rfl⟩

/-- The spec's malformed-`patterns` document:
`{patterns: {not-a-list: true}}`. -/
def c6doc : List (String × Value) :=
  [("patterns", .dict [("not-a-list", .bool true)])]

/-- Witness for `c6_patterns_must_be_list` at `c6doc`. -/
theorem c6_patterns_must_be_list_witness :
    ∃ m, buildBooleanExpression c6doc = .error (.invalidRuleSchema m) ∧
      mentions "expected list" m ∧ mentions "dict" m :=
  c6_patterns_must_be_list c6doc (.dict [("not-a-list", .bool true)]) rfl rfl rfl
    (fun _ h => Value.noConfusion h)

mutual
/-- Relabeling of every string value in a document through `f`, preserving
all structure and all mapping keys. -/
def mapVal (f : String → String) : Value → Value
  | .str s => .str (f s)
  | .int n => .int n
  | .bool b => .bool b
  | .null => .null
  | .list xs => .list (mapValList f xs)
  | .dict xs => .dict (mapValPairs f xs)

/-- `mapVal` over list elements. -/
def mapValList (f : String → String) : List Value → List Value
  | [] => []
  | v :: rest => mapVal f v :: mapValList f rest

/-- `mapVal` over mapping entries (keys untouched). -/
def mapValPairs (f : String → String) : List (String × Value) → List (String × Value)
  | [] => []
  | kv :: rest => (kv.1, mapVal f kv.2) :: mapValPairs f rest
end

/-- `mapVal` lifted to an optional span. -/
def mapSpanOpt (f : String → String) : Option Span → Option Span
  | none => none
  | some sp => some ⟨mapVal f sp.src⟩

mutual
/-- Relabeling of the pattern texts (and span payloads) of a tree;
`operator`, `pattern_id` and the tree structure are untouched. -/
def mapExpr (f : String → String) : BooleanRuleExpression → BooleanRuleExpression
  | .mk op pid (some cs) t sp =>
    .mk op pid (some (mapExprList f cs)) (t.map (mapVal f)) (mapSpanOpt f sp)
  | .mk op pid none t sp =>
    .mk op pid none (t.map (mapVal f)) (mapSpanOpt f sp)

/-- `mapExpr` over a forest. -/
def mapExprList (f : String → String) : List BooleanRuleExpression → List BooleanRuleExpression
  | [] => []
  | e :: rest => mapExpr f e :: mapExprList f rest
end

/-- `f` maps empty strings to empty strings and non-empty strings to
non-empty strings, so relabeling through `f` preserves Python
truthiness. -/
def emptinessPreserving (f : String → String) : Prop :=
  ∀ s, (f s).isEmpty = s.isEmpty

/-- The accepted top-level pattern key names. -/
def familyKeys : List String :=
  patternNamesForOperators YAML_VALID_TOP_LEVEL_OPERATORS

/-- Whether `k` is one of the accepted top-level pattern key names. -/
def isFamilyKey (k : String) : Bool :=
  familyKeys.contains k

/-- Relabeling of the pattern texts of a rule document: the values of the
four top-level pattern family keys are relabeled through `mapVal`; every
other top-level entry (`id`, `paths`, `message`, ...) is untouched.  Two
documents related by `mapFam` have the same shape in the sense of the
determinism claim. -/
def mapFam (f : String → String) (raw : List (String × Value)) : List (String × Value) :=
  raw.map (fun kv => if isFamilyKey kv.1 then (kv.1, mapVal f kv.2) else kv)

/-- Inversion for a successful `Except.map`. -/
theorem map_ok {ε α β : Type} {x : Except ε α} {g : α → β} {b : β}
    (h : x.map g = .ok b) : ∃ a, x = .ok a ∧ g a = b := by
  cases x with
  | error e => exact absurd h (by simp [Except.map])
  | ok a => exact ⟨a, rfl, by simpa [Except.map] using h⟩

/-- Relabeling preserves Python truthiness. -/
theorem truthy_mapVal {f : String → String} (hf : emptinessPreserving f) :
    ∀ v : Value, (mapVal f v).truthy = v.truthy := by
  intro v
  cases v with
  | str s => simp [mapVal, Value.truthy, hf s]
  | int n => simp [mapVal]
  | bool b => simp [mapVal]
  | null => simp [mapVal]
  | list xs => cases xs <;> simp [mapVal, mapValList, Value.truthy]
  | dict xs => cases xs <;> simp [mapVal, mapValPairs, Value.truthy]

/-- `dictGet` after `mapFam`, for a family key. -/
theorem dictGet_mapFam_family {f : String → String} {k : String}
    (hk : isFamilyKey k = true) :
    ∀ raw : List (String × Value),
      dictGet (mapFam f raw) k = (dictGet raw k).map (mapVal f) := by
  intro raw
  induction raw with
  | nil => simp [mapFam, dictGet]
  | cons kv rest ih =>
    by_cases hkv : kv.1 = k
    · cases hc : isFamilyKey kv.1 with
      | true => simp [mapFam, dictGet, hkv, hc, hk]
      | false =>
        rw [hkv] at hc
        rw [hk] at hc
        exact Bool.noConfusion hc
    · cases hc : isFamilyKey kv.1 <;>
        simpa [mapFam, dictGet, hkv, hc] using ih

/-- `dictGet` after `mapFam`, for a non-family key. -/
theorem dictGet_mapFam_other {f : String → String} {k : String}
    (hk : isFamilyKey k = false) :
    ∀ raw : List (String × Value),
      dictGet (mapFam f raw) k = dictGet raw k := by
  intro raw
  induction raw with
  | nil => simp [mapFam]
  | cons kv rest ih =>
    by_cases hkv : kv.1 = k
    · cases hc : isFamilyKey kv.1 with
      | false => simp [mapFam, dictGet, hkv, hc, hk]
      | true =>
        rw [hkv] at hc
        rw [hk] at hc
        exact Bool.noConfusion hc
    · cases hc : isFamilyKey kv.1 <;>
        simpa [mapFam, dictGet, hkv, hc] using ih

/-- `findTruthy` after `mapFam`, over family key names. -/
theorem findTruthy_mapFam {f : String → String} (hf : emptinessPreserving f) :
    ∀ (names : List String), (∀ n ∈ names, isFamilyKey n = true) →
      ∀ raw : List (String × Value),
        findTruthy (mapFam f raw) names = (findTruthy raw names).map (mapVal f) := by
  intro names
  induction names with
  | nil => intro _ raw; simp [findTruthy]
  | cons n rest ih =>
    intro hmem raw
    have hfam := hmem n (List.mem_cons_self n rest)
    have hrest := fun m hm => hmem m (List.mem_cons_of_mem n hm)
    rw [findTruthy, findTruthy, dictGet_mapFam_family hfam]
    cases hg : dictGet raw n with
    | none => simp [ih hrest raw]
    | some v =>
      cases hv : v.truthy <;>
        simp [truthy_mapVal hf v, hv, ih hrest raw]

/-- `Span.fromDict` commutes with relabeling. -/
theorem fromDict_mapVal (f : String → String) :
    ∀ v : Value, Span.fromDict (mapVal f v) = mapSpanOpt f (Span.fromDict v) := by
  intro v
  cases v <;> simp [mapVal, Span.fromDict, mapSpanOpt]

/-- `mapExprList` distributes over append. -/
theorem mapExprList_append (f : String → String) :
    ∀ (a b : List BooleanRuleExpression),
      mapExprList f (a ++ b) = mapExprList f a ++ mapExprList f b := by
  intro a b
  induction a with
  | nil => simp [mapExprList]
  | cons e rest ih => simp [mapExprList, ih]

/-- `shapeOf` is invariant under relabeling of pattern texts. -/
theorem shapeOf_mapExpr (f : String → String) :
    ∀ e : BooleanRuleExpression, shapeOf (mapExpr f e) = shapeOf e := by
  refine mapExpr.induct f
    (fun e => shapeOf (mapExpr f e) = shapeOf e)
    (fun es => shapeOfList (mapExprList f es) = shapeOfList es)
    ?_ ?_ ?_ ?_
  · intro op pid cs t sp ih
    rw [mapExpr]
    simp [shapeOf, ih]
  · intro op pid t sp
    rw [mapExpr]
    simp [shapeOf]
  · simp [mapExprList, shapeOfList]
  · intro e rest ih1 ih2
    rw [mapExprList]
    simp [shapeOfList, ih1, ih2]

/-- `shapeOfList` is invariant under relabeling. -/
theorem shapeOfList_mapExprList (f : String → String) :
    ∀ es : List BooleanRuleExpression,
      shapeOfList (mapExprList f es) = shapeOfList es := by
  intro es
  induction es with
  | nil => simp [mapExprList]
  | cons e rest ih =>
    rw [mapExprList]
    simp [shapeOfList, shapeOf_mapExpr f e, ih]

/-- Commutation of the pattern-list parser with relabeling: on a relabeled
input the parser succeeds with the relabeled output and the *same* leaf
counter threading — leaf identifiers do not depend on the pattern texts. -/
theorem parseElems_mapVal (f : String → String) :
    ∀ (pats : List Value) (pid : Nat) (pfx : String)
      (es : List BooleanRuleExpression) (n : Nat),
      parseElems pats pid pfx = .ok (es, n) →
      parseElems (mapValList f pats) pid pfx = .ok (mapExprList f es, n) := by
  refine parseElems.induct
    (fun pats pid pfx => ∀ es n, parseElems pats pid pfx = .ok (es, n) →
      parseElems (mapValList f pats) pid pfx = .ok (mapExprList f es, n))
    (fun elem pairs pid pfx => ∀ es n, parsePairs elem pairs pid pfx = .ok (es, n) →
      parsePairs (mapVal f elem) (mapValPairs f pairs) pid pfx = .ok (mapExprList f es, n))
    ?_ ?_ ?_ ?_ ?_ ?_ ?_ ?_ ?_
  · intro pid pfx es n h
    rw [parseElems] at h
    simp only [Except.ok.injEq, Prod.mk.injEq] at h
    rw [← h.1, ← h.2]
    simp [mapValList, mapExprList, parseElems]
  · intro rest pid pfx xs ih2 ih1 es n h
    rw [parseElems] at h
    obtain ⟨⟨es1, pid1⟩, h1, h⟩ := bind_ok h
    obtain ⟨⟨more, pid2⟩, h2, h⟩ := bind_ok h
    simp only [Except.ok.injEq, Prod.mk.injEq] at h
    rw [← h.1, ← h.2]
    have hm1 := ih2 es1 pid1 h1
    rw [mapVal] at hm1
    have hm2 := ih1 pid1 more pid2 h2
    rw [mapValList, mapVal, parseElems]
    simp [Bind.bind, Except.bind, hm1, hm2, mapExprList_append]
  · intro p rest pid pfx hnd es n h
    cases p with
    | dict xs => exact absurd rfl (hnd xs)
    | str s => rw [parseElems.eq_def] at h; simp at h
    | int i => rw [parseElems.eq_def] at h; simp at h
    | bool b => rw [parseElems.eq_def] at h; simp at h
    | null => rw [parseElems.eq_def] at h; simp at h
    | list xs => rw [parseElems.eq_def] at h; simp at h
  · intro elem pid pfx es n h
    rw [parsePairs] at h
    simp only [Except.ok.injEq, Prod.mk.injEq] at h
    rw [← h.1, ← h.2]
    simp [mapValPairs, mapExprList, parsePairs]
  · intro elem k v rest pid pfx hsk ih es n h
    rw [parsePairs, if_pos hsk] at h
    have hm := ih es n h
    rw [mapValPairs]
    rw [parsePairs, if_pos hsk]
    exact hm
  · intro elem k v rest pid pfx hsk hop es n h
    rw [parsePairs, if_neg hsk, hop] at h
    simp at h
  · intro elem k rest pid pfx hsk op hop l ih1 ih2 es n h
    rw [parsePairs, if_neg hsk, hop] at h
    obtain ⟨⟨sub, m1⟩, h1, h⟩ := bind_ok h
    obtain ⟨⟨more, pid2⟩, h2, h⟩ := bind_ok h
    simp only [Except.ok.injEq, Prod.mk.injEq] at h
    rw [← h.1, ← h.2]
    have hsub := ih1 sub m1 h1
    have hmore := ih2 more pid2 h2
    rw [mapValPairs]
    rw [parsePairs, if_neg hsk, hop]
    rw [mapVal]
    simp [Bind.bind, Except.bind, hsub, hmore, mapExprList, mapExpr,
      fromDict_mapVal, mapVal]
  · intro elem k rest pid pfx hsk op hop s ih es n h
    rw [parsePairs, if_neg hsk, hop] at h
    obtain ⟨⟨more, pid2⟩, h2, h⟩ := bind_ok h
    simp only [Except.ok.injEq, Prod.mk.injEq] at h
    rw [← h.1, ← h.2]
    have hmore := ih more pid2 h2
    rw [mapValPairs]
    rw [parsePairs, if_neg hsk, hop]
    rw [mapVal]
    simp [Bind.bind, Except.bind, hmore, mapExprList, mapExpr, fromDict_mapVal, mapVal]
  · intro elem k v rest pid pfx hsk op hop hnl hns es n h
    rw [parsePairs, if_neg hsk, hop] at h
    rcases v with s | i | b | _ | xs | xs <;> simp at h
    · exact absurd rfl (hns s)
    · exact absurd rfl (hnl xs)

/-- Commutation of `_parse_boolean_expression` with relabeling. -/
theorem parseBooleanExpression_mapVal (f : String → String) :
    ∀ (v parent : Value) (pid : Nat) (pfx : String) (cs : List BooleanRuleExpression),
      parseBooleanExpression v parent pid pfx = .ok cs →
      ∀ parent2 : Value,
        parseBooleanExpression (mapVal f v) parent2 pid pfx = .ok (mapExprList f cs) := by
  intro v parent pid pfx cs h parent2
  cases v with
  | list pats =>
    rw [parseBooleanExpression] at h
    obtain ⟨⟨es, n⟩, h1, h2⟩ := map_ok h
    rw [mapVal, parseBooleanExpression, parseElems_mapVal f pats pid pfx es n h1]
    simp at h2
    simp [Except.map, h2]
  | str s => rw [parseBooleanExpression.eq_def] at h; simp at h
  | int i => rw [parseBooleanExpression.eq_def] at h; simp at h
  | bool b => rw [parseBooleanExpression.eq_def] at h; simp at h
  | null => rw [parseBooleanExpression.eq_def] at h; simp at h
  | dict xs => rw [parseBooleanExpression.eq_def] at h; simp at h

/-- C7: identifier assignment is a pure function of the document's shape —
relabeling every pattern string of a document (by any truthiness-preserving
renaming) leaves the compiled tree's operator structure and every node's
`pattern_id` unchanged.  Recompiling the unchanged document is the special
case `f = id`; compilation is a pure function, so compiling twice yields
syntactically identical trees. -/
theorem c7_ids_pure_function_of_shape :
    ∀ (f : String → String) (raw : List (String × Value)) (e : BooleanRuleExpression),
      emptinessPreserving f →
      buildBooleanExpression raw = .ok e →
      ∃ e2, buildBooleanExpression (mapFam f raw) = .ok e2 ∧ shapeOf e2 = shapeOf e := by
  intro f raw e hf h
  have hA := findTruthy_mapFam hf (patternNamesForOperator .opAnd)
    (by intro n hn; simp [patternNamesForOperator] at hn; rw [hn]; rfl) raw
  have hR := findTruthy_mapFam hf (patternNamesForOperator .opRegex)
    (by intro n hn; simp [patternNamesForOperator] at hn; rw [hn]; rfl) raw
  have hAll := findTruthy_mapFam hf (patternNamesForOperator .opAndAll)
    (by intro n hn; simp [patternNamesForOperator] at hn; rw [hn]; rfl) raw
  have hE := findTruthy_mapFam hf (patternNamesForOperator .opAndEither)
    (by intro n hn; simp [patternNamesForOperator] at hn; rw [hn]; rfl) raw
  cases h1 : findTruthy raw (patternNamesForOperator .opAnd) with
  | some v =>
    rw [buildBooleanExpression_and raw v h1] at h
    obtain ⟨i, hi, he⟩ := map_ok h
    have h1m : findTruthy (mapFam f raw) (patternNamesForOperator .opAnd) =
        some (mapVal f v) := by rw [hA, h1]; rfl
    have hid : dictGetItem (mapFam f raw) "id" = .ok i := by
      rw [dictGetItem, dictGet_mapFam_other (by rfl) raw]
      rw [dictGetItem] at hi
      exact hi
    refine ⟨.mk .opAnd (some i) none (some (mapVal f v))
      (Span.fromDict (.dict (mapFam f raw))), ?_, ?_⟩
    · rw [buildBooleanExpression_and (mapFam f raw) (mapVal f v) h1m, hid]
      rfl
    · rw [← he]
      simp [shapeOf]
  | none =>
  cases h2 : findTruthy raw (patternNamesForOperator .opRegex) with
  | some v =>
    rw [buildBooleanExpression_regex raw v h1 h2] at h
    obtain ⟨i, hi, he⟩ := map_ok h
    have h1m : findTruthy (mapFam f raw) (patternNamesForOperator .opAnd) = none := by
      rw [hA, h1]; rfl
    have h2m : findTruthy (mapFam f raw) (patternNamesForOperator .opRegex) =
        some (mapVal f v) := by rw [hR, h2]; rfl
    have hid : dictGetItem (mapFam f raw) "id" = .ok i := by
      rw [dictGetItem, dictGet_mapFam_other (by rfl) raw]
      rw [dictGetItem] at hi
      exact hi
    refine ⟨.mk .opRegex (some i) none (some (mapVal f v))
      (Span.fromDict (.dict (mapFam f raw))), ?_, ?_⟩
    · rw [buildBooleanExpression_regex (mapFam f raw) (mapVal f v) h1m h2m, hid]
      rfl
    · rw [← he]
      simp [shapeOf]
  | none =>
  cases h3 : findTruthy raw (patternNamesForOperator .opAndAll) with
  | some v =>
    rw [buildBooleanExpression_andall raw v h1 h2 h3] at h
    obtain ⟨cs, hcs, he⟩ := map_ok h
    have h1m : findTruthy (mapFam f raw) (patternNamesForOperator .opAnd) = none := by
      rw [hA, h1]; rfl
    have h2m : findTruthy (mapFam f raw) (patternNamesForOperator .opRegex) = none := by
      rw [hR, h2]; rfl
    have h3m : findTruthy (mapFam f raw) (patternNamesForOperator .opAndAll) =
        some (mapVal f v) := by rw [hAll, h3]; rfl
    have hsub := parseBooleanExpression_mapVal f v (.dict raw) 0 "" cs hcs
      (.dict (mapFam f raw))
    refine ⟨.mk .opAndAll none (some (mapExprList f cs)) none
      (Span.fromDict (.dict (mapFam f raw))), ?_, ?_⟩
    · rw [buildBooleanExpression_andall (mapFam f raw) (mapVal f v) h1m h2m h3m, hsub]
      rfl
    · rw [← he]
      simp [shapeOf, shapeOfList_mapExprList]
  | none =>
  cases h4 : findTruthy raw (patternNamesForOperator .opAndEither) with
  | some v =>
    rw [buildBooleanExpression_andeither raw v h1 h2 h3 h4] at h
    obtain ⟨cs, hcs, he⟩ := map_ok h
    have h1m : findTruthy (mapFam f raw) (patternNamesForOperator .opAnd) = none := by
      rw [hA, h1]; rfl
    have h2m : findTruthy (mapFam f raw) (patternNamesForOperator .opRegex) = none := by
      rw [hR, h2]; rfl
    have h3m : findTruthy (mapFam f raw) (patternNamesForOperator .opAndAll) = none := by
      rw [hAll, h3]; rfl
    have h4m : findTruthy (mapFam f raw) (patternNamesForOperator .opAndEither) =
        some (mapVal f v) := by rw [hE, h4]; rfl
    have hsub := parseBooleanExpression_mapVal f v (.dict raw) 0 "" cs hcs
      (.dict (mapFam f raw))
    refine ⟨.mk .opAndEither none (some (mapExprList f cs)) none
      (Span.fromDict (.dict (mapFam f raw))), ?_, ?_⟩
    · rw [buildBooleanExpression_andeither (mapFam f raw) (mapVal f v) h1m h2m h3m h4m, hsub]
      rfl
    · rw [← he]
      simp [shapeOf, shapeOfList_mapExprList]
  | none =>
  rw [buildBooleanExpression_nomatch raw h1 h2 h3 h4] at h
  exact absurd h (by simp)

/-- A truthiness-preserving relabeling collapsing every non-empty string. -/
def c7f : String → String :=
  fun s => if s.isEmpty then s else "z"

/-- A composite document with two leaves under `patterns`. -/
def c7doc : List (String × Value) :=
  [("id", .str "r"),
   ("patterns", .list [.dict [("pattern", .str "hello")],
     .dict [("pattern-inside", .str "world")]])]

/-- The tree compiled from `c7doc`. -/
def c7tree : BooleanRuleExpression :=
  .mk .opAndAll none
    (some [.mk .opAnd (some (.str ".0")) none (some (.str "hello"))
        (some ⟨.dict [("pattern", .str "hello")]⟩),
      .mk .opAndInside (some (.str ".1")) none (some (.str "world"))
        (some ⟨.dict [("pattern-inside", .str "world")]⟩)])
    none (some ⟨.dict c7doc⟩)

/-- Witness for `c7_ids_pure_function_of_shape` at `c7doc` with the
relabeling `c7f`. -/
theorem c7_ids_pure_function_of_shape_witness :
    ∃ e2, buildBooleanExpression (mapFam c7f c7doc) = .ok e2 ∧
      shapeOf e2 = shapeOf c7tree :=
  c7_ids_pure_function_of_shape c7f c7doc c7tree
    (fun s => by
      by_cases h : s.isEmpty
      · simp [c7f, h]
      · simp [c7f, h]
        rfl)
    (by
      simp [buildBooleanExpression, parseBooleanExpression, parseElems, parsePairs, findTruthy,
        dictGet, dictGetItem, c7doc, c7tree, patternNamesForOperator, operatorForPatternName,
        Value.truthy, Span.fromDict]
      rfl)

/-- C8: the SARIF projection maps severity by the fixed total table
`INFO→note, WARNING→warning, ERROR→error` and fails fast (`KeyError`) on any
other severity; it emits the tag `cwe` iff the metadata mapping has a `cwe`
key and `owasp` iff it has an `owasp` key, and no other tags. -/
theorem c8_sarif_projection :
    ∀ r : Rule,
      (r.severity = .ok "INFO" → r.sarifSeverity = .ok "note") ∧
      (r.severity = .ok "WARNING" → r.sarifSeverity = .ok "warning") ∧
      (r.severity = .ok "ERROR" → r.sarifSeverity = .ok "error") ∧
      (∀ s, r.severity = .ok s → s ≠ "INFO" → s ≠ "WARNING" → s ≠ "ERROR" →
        r.sarifSeverity = .error (.keyError s)) ∧
      (∀ md tags, r.metadata = .dict md → r.sarifTags = .ok tags →
        (("cwe" ∈ tags) ↔ ∃ kv ∈ md, kv.1 = "cwe") ∧
        (("owasp" ∈ tags) ↔ ∃ kv ∈ md, kv.1 = "owasp") ∧
        (∀ t ∈ tags, t = "cwe" ∨ t = "owasp")) := by
  intro r
  refine ⟨?_, ?_, ?_, ?_, ?_⟩
  · intro hs
    rw [Rule.sarifSeverity, hs]
    rfl
  · intro hs
    rw [Rule.sarifSeverity, hs]
    rfl
  · intro hs
    rw [Rule.sarifSeverity, hs]
    rfl
  · intro s hs h1 h2 h3
    rw [Rule.sarifSeverity, hs]
    simp [Bind.bind, Except.bind, h1, h2, h3]
  · intro md tags hmd htags
    rw [Rule.sarifTags, hmd] at htags
    simp only [pyIn, Bind.bind, Except.bind, Except.ok.injEq] at htags
    rw [← htags]
    refine ⟨?_, ?_, ?_⟩
    · cases hc : md.any (fun kv => kv.1 == "cwe") <;>
        cases ho : md.any (fun kv => kv.1 == "owasp") <;>
        simp [List.any_eq_true, beq_iff_eq] at hc ho <;>
        simp [hc, ho, List.any_eq_true, beq_iff_eq] <;>
        intro x hx <;> exact hc "cwe" x hx rfl
    · cases hc : md.any (fun kv => kv.1 == "cwe") <;>
        cases ho : md.any (fun kv => kv.1 == "owasp") <;>
        simp [List.any_eq_true, beq_iff_eq] at hc ho <;>
        simp [hc, ho, List.any_eq_true, beq_iff_eq] <;>
        intro x hx <;> exact ho "owasp" x hx rfl
    · cases hc : md.any (fun kv => kv.1 == "cwe") <;>
        cases ho : md.any (fun kv => kv.1 == "owasp") <;>
        simp [hc, ho]

/-- The raw document of the spec's SARIF example: severity `WARNING` and
metadata `{cwe: CWE-89}`. -/
def c8doc : List (String × Value) :=
  [("id", .str "s1"), ("pattern", .str "x"), ("message", .str "m"),
   ("severity", .str "WARNING"),
   ("metadata", .dict [("cwe", .str "CWE-89")])]

/-- The compiled rule for `c8doc` (raw document plus the values `__init__`
computes for it). -/
def c8rule : Rule :=
  ⟨c8doc,
   .mk .opAnd (some (.str "s1")) none (some (.str "x")) (some ⟨.dict c8doc⟩),
   ⟨[], []⟩⟩

/-- Witness for `c8_sarif_projection` at `c8rule`: level `"warning"`, tags
`["cwe"]`, and the claimed tag↔metadata equivalence, plus the full SARIF
fragment. -/
theorem c8_sarif_projection_witness :
    Rule.build c8doc = .ok c8rule ∧
    c8rule.sarifSeverity = .ok "warning" ∧
    c8rule.sarifTags = .ok ["cwe"] ∧
    (("cwe" ∈ (["cwe"] : List String)) ↔
      ∃ kv ∈ [("cwe", Value.str "CWE-89")], kv.1 = "cwe") ∧
    c8rule.toSarif = .ok (.dict
      [("id", .str "s1"),
       ("name", .str "s1"),
       ("shortDescription", .dict [("text", .str "m")]),
       ("fullDescription", .dict [("text", .str "m")]),
       ("defaultConfiguration", .dict [("level", .str "warning")]),
       ("properties", .dict
         [("precision", .str "very-high"),
          ("tags", .list [.str "cwe"])])]) :=
  ⟨rfl,
   (c8_sarif_projection c8rule).2.1 rfl,
   rfl,
   ((c8_sarif_projection c8rule).2.2.2.2 [("cwe", .str "CWE-89")] ["cwe"] rfl rfl).1,
   rfl⟩

/-- C9: a successfully constructed rule stores and returns the original
document unmodified — `to_json` and the `raw` property are the exact input
mapping.  The whole compilation is embedded as a pure function on the
document, so it cannot mutate its input. -/
theorem c9_to_json_returns_original :
    ∀ (raw : List (String × Value)) (r : Rule),
      Rule.build raw = .ok r → r.toJson = raw ∧ r.raw = raw := by
  intro raw r h
  rw [Rule.build] at h
  obtain ⟨e, he, h⟩ := bind_ok h
  obtain ⟨g, hg, h⟩ := bind_ok h
  simp only [Except.ok.injEq] at h
  rw [← h]
  exact ⟨rfl, rfl⟩

/-- A small complete rule document. -/
def c9doc : List (String × Value) :=
  [("id", .str "r"), ("pattern", .str "x")]

/-- The compiled rule for `c9doc`. -/
def c9rule : Rule :=
  ⟨c9doc,
   .mk .opAnd (some (.str "r")) none (some (.str "x")) (some ⟨.dict c9doc⟩),
   ⟨[], []⟩⟩

/-- Witness for `c9_to_json_returns_original` at `c9doc`. -/
theorem c9_to_json_returns_original_witness :
    Rule.build c9doc = .ok c9rule ∧ c9rule.toJson = c9doc ∧ c9rule.raw = c9doc :=
  ⟨rfl, (c9_to_json_returns_original c9doc c9rule rfl).1,
    (c9_to_json_returns_original c9doc c9rule rfl).2⟩

/-- C10: `Rule.__init__` never checks the `message`, `severity` or
`languages` keys — whenever the expression and the globs build (for example
a document whose only key is a truthy `patterns` list), construction
succeeds, and the corresponding accessors then fail with a `KeyError`
(a key-lookup error), not a SchemaError. -/
theorem c10_construction_skips_required_keys :
    ∀ (raw : List (String × Value)) (e : BooleanRuleExpression) (g : RuleGlobs),
      buildBooleanExpression raw = .ok e →
      buildGlobs raw = .ok g →
      dictGet raw "message" = none →
      dictGet raw "severity" = none →
      dictGet raw "languages" = none →
      ∃ r, Rule.build raw = .ok r ∧
        r.message = .error (.keyError "message") ∧
        r.severity = .error (.keyError "severity") ∧
        r.sarifSeverity = .error (.keyError "severity") ∧
        r.languages = .error (.keyError "languages") := by
  intro raw e g he hg hm hs hl
  refine ⟨⟨raw, e, g⟩, ?_, ?_, ?_, ?_, ?_⟩
  · rw [Rule.build]
    simp [Bind.bind, Except.bind, he, hg]
  · simp [Rule.message, dictGetItem, hm, Except.map]
  · simp [Rule.severity, dictGetItem, hs, Except.map]
  · simp [Rule.sarifSeverity, Rule.severity, dictGetItem, hs, Except.map,
      Bind.bind, Except.bind]
  · simp [Rule.languages, dictGetItem, hl]

/-- A document whose only key is a truthy composite `patterns` list: no
`id`, `message`, `severity` or `languages`. -/
def c10doc : List (String × Value) :=
  [("patterns", .list [.dict [("pattern", .str "x")]])]

/-- The expression compiled from `c10doc`. -/
def c10tree : BooleanRuleExpression :=
  .mk .opAndAll none
    (some [.mk .opAnd (some (.str ".0")) none (some (.str "x"))
      (some ⟨.dict [("pattern", .str "x")]⟩)])
    none (some ⟨.dict c10doc⟩)

/-- Witness for `c10_construction_skips_required_keys` at `c10doc`. -/
theorem c10_construction_skips_required_keys_witness :
    ∃ r, Rule.build c10doc = .ok r ∧
      r.message = .error (.keyError "message") ∧
      r.severity = .error (.keyError "severity") ∧
      r.sarifSeverity = .error (.keyError "severity") ∧
      r.languages = .error (.keyError "languages") :=
  c10_construction_skips_required_keys c10doc c10tree ⟨[], []⟩
    (by
      simp [buildBooleanExpression, parseBooleanExpression, parseElems, parsePairs, findTruthy,
        dictGet, dictGetItem, c10doc, c10tree, patternNamesForOperator, operatorForPatternName,
        Value.truthy, Span.fromDict]
      rfl)
    rfl rfl rfl rfl

end Semgrep
